import Mathlib

/- A shallow embedding of src/dist/metal.js.

   Modelled components:
   - wrap (lines 29-37): the dispatch wrapper closure around this._super.
   - superTest (lines 45-47): the regex test for a standalone _super token.
     We model the branch where the host can render function source text,
     which is the regex bb_super-word-boundary; the fallback regex that
     matches everything only applies to hosts without function decompilation.
   - wrapAll (lines 58-84): the merge-with-super-wrap algorithm.
   - Class.extend (lines 140-181), mixin (lines 211-215), include (lines 256-260).
   - Metal.Error construction (lines 310-338) and toString (lines 360-362).
   - deprecate (lines 382-444) with its plain-object warn-once cache.

   JavaScript objects are association lists of string keys; the prototype
   chain of a class prototype object is the list of ancestor class ids whose
   own tables are consulted in order. Classes live in a Store keyed by ids so
   that mutation (mixin, include) and non-mutation (extend) are observable.
   Method bodies are a small inductive of the function shapes the claims
   exercise; each carries a JavaScript source rendering so that the textual
   heuristic applies to it exactly as the regex applies to real source. -/

namespace MetalSpec

set_option maxRecDepth 200000

mutual

/-- JavaScript values used by the model: undefined, numbers, strings, functions. -/
inductive Val where
  | undefined : Val
  | num : Int → Val
  | str : String → Val
  | fn : Fn → Val

/-- Function values. The first five constructors are bodies of user-written
    member functions; wrapped is the closure returned by wrap (lines 30-36);
    delegate is the defaulted child constructor of extend (lines 148-150). -/
inductive Fn where
  | ret : Val → Fn
  | throwErr : Fn
  | storeArg : String → Fn
  | callSuperAddNum : Int → Fn
  | strConcatSuper : String → Fn
  | wrapped : Val → Val → Fn
  | delegate : Val → Fn

end

mutual

/-- Source-text rendering of a value as it appears as a literal inside a
    function body (strings are quoted). -/
def Val.lit : Val → String
  | .undefined => "undefined"
  | .num n => toString n
  | .str s => "\x22" ++ s ++ "\x22"
  | .fn f => Fn.render f

/-- Source text of a function value, as Function.prototype.toString renders it
    (whitespace-normalized). Closures render their written source; captured
    variables such as superMethod or Parent appear as identifiers, not values. -/
def Fn.render : Fn → String
  | .ret v => "function () \x7b return " ++ Val.lit v ++ "; \x7d"
  | .throwErr => "function () \x7b throw new Error(); \x7d"
  | .storeArg k => "function (x) \x7b this[\x22" ++ k ++ "\x22] = x; \x7d"
  | .callSuperAddNum k =>
      "function () \x7b var r = this._super.apply(this, arguments); if (typeof r !== \x22number\x22) throw new TypeError(); return r + " ++ toString k ++ "; \x7d"
  | .strConcatSuper p =>
      "function () \x7b var r = this._super.apply(this, arguments); if (typeof r !== \x22string\x22) throw new TypeError(); return \x22" ++ p ++ "\x22 + r; \x7d"
  | .wrapped _ _ =>
      "function () \x7b var prevSuper = this._super; this._super = superMethod; var ret = method.apply(this, arguments); this._super = prevSuper; return ret; \x7d"
  | .delegate _ => "function () \x7b Parent.apply(this, arguments); \x7d"

end

/-- String coercion of a value, as applied by RegExp.prototype.test to its
    argument (line 72 applies superTest.test to the candidate member). -/
def Val.coerceStr : Val → String
  | .undefined => "undefined"
  | .num n => toString n
  | .str s => s
  | .fn f => Fn.render f

/-- Word characters of the regex escape bw: letters, digits and underscore. -/
def isWordChar (c : Char) : Bool := c.isAlphanum || c == '_'

/-- The character list of the super-reference token. -/
def superTok : List Char := ['_', 's', 'u', 'p', 'e', 'r']

/-- Whether the token _super occurs at index i of the character list. -/
def occursAtB (cs : List Char) (i : Nat) : Bool :=
  if (cs.drop i).take 6 = superTok then true else false

/-- Word boundary on the left of index i: start of text or a non-word char. -/
def boundaryBeforeB (cs : List Char) (i : Nat) : Bool :=
  if 0 < i then !isWordChar (cs.getD (i - 1) ' ') else true

/-- Word boundary after the token starting at index i: end of text or a
    non-word char at index i + 6. -/
def boundaryAfterB (cs : List Char) (i : Nat) : Bool :=
  if i + 6 < cs.length then !isWordChar (cs.getD (i + 6) ' ') else true

/-- An occurrence at i that is flanked by a word character on at least one
    side, hence part of a longer identifier. -/
def flankedB (cs : List Char) (i : Nat) : Bool :=
  (!boundaryBeforeB cs i) || (!boundaryAfterB cs i)

/-- A standalone (whole-word) occurrence of _super at index i. -/
def standaloneAt (cs : List Char) (i : Nat) : Bool :=
  occursAtB cs i && boundaryBeforeB cs i && boundaryAfterB cs i

/-- The regex of lines 45-47 in the branch where function source is
    renderable: a whole-word match of _super anywhere in the text. -/
def superTest (s : String) : Bool :=
  (List.range s.data.length).any (fun i => standaloneAt s.data i)

/-- The test superTest.test(method) of line 72, applied to a value via the
    string coercion RegExp performs. -/
def superTestOn (v : Val) : Bool := superTest v.coerceStr

/-- The lodash isFunction check used on line 76. -/
def isFunctionV : Val → Bool
  | .fn _ => true
  | _ => false

/-- A JavaScript object own-property table: string keys to values, in
    insertion order, keys unique. -/
abbrev Table := List (String × Val)

/-- Bracket lookup among own properties. -/
def lookupT : Table → String → Option Val
  | [], _ => none
  | (k', v) :: t, k => if k' = k then some v else lookupT t k

/-- Bracket assignment: overwrite in place, or append a new key. -/
def setT : Table → String → Val → Table
  | [], k, v => [(k, v)]
  | (k', v') :: t, k, v => if k' = k then (k, v) :: t else (k', v') :: setT t k v

/-- Receiver state of one instance: the _super own slot (undefined when the
    property is absent) and the remaining own fields. -/
structure RState where
  superSlot : Val
  fields : Table

/-- Result of one invocation: a returned value, a thrown failure (named by
    its constructor string), or fuel exhaustion of the interpreter. -/
inductive Outcome where
  | ok : Val → Outcome
  | thrown : String → Outcome
  | stuck : Outcome

/-- Calling a value on a receiver with an argument list. The wrapped case is
    the closure of lines 30-36: save prevSuper, set the slot to superMethod,
    apply the method, and restore the slot only after a normal return; a
    thrown failure propagates without any restoration, exactly as the source
    has no try or finally around the apply on line 33. -/
def callFn : Nat → Val → RState → List Val → Outcome × RState
  | 0, _, r, _ => (.stuck, r)
  | _ + 1, .fn (.ret x), r, _ => (.ok x, r)
  | _ + 1, .fn .throwErr, r, _ => (.thrown "Error", r)
  | _ + 1, .fn (.storeArg k), r, args =>
      (.ok .undefined, { r with fields := setT r.fields k (args.headD .undefined) })
  | fuel + 1, .fn (.callSuperAddNum k), r, args =>
      match callFn fuel r.superSlot r args with
      | (.ok (.num n), r2) => (.ok (.num (n + k)), r2)
      | (.ok _, r2) => (.thrown "TypeError", r2)
      | (o, r2) => (o, r2)
  | fuel + 1, .fn (.strConcatSuper p), r, args =>
      match callFn fuel r.superSlot r args with
      | (.ok (.str t), r2) => (.ok (.str (p ++ t)), r2)
      | (.ok _, r2) => (.thrown "TypeError", r2)
      | (o, r2) => (o, r2)
  | fuel + 1, .fn (.wrapped m superM), r, args =>
      match callFn fuel m { r with superSlot := superM } args with
      | (.ok x, r2) => (.ok x, { r2 with superSlot := r.superSlot })
      | (o, r2) => (o, r2)
  | fuel + 1, .fn (.delegate p), r, args =>
      match callFn fuel p r args with
      | (.ok _, r2) => (.ok .undefined, r2)
      | (o, r2) => (o, r2)
  | _ + 1, _, r, _ => (.thrown "TypeError", r)

/-- The function wrap(method, superMethod) of lines 29-37: it returns the
    closure value whose behavior is the wrapped case of callFn. -/
def wrap (method superMethod : Val) : Val := .fn (.wrapped method superMethod)

deriving instance DecidableEq for Val, Fn
deriving instance DecidableEq for RState
deriving instance DecidableEq for Outcome

/-- A class record: the constructor function value (the Child function of
    extend), the own table of Child.prototype, the prototype chain as the ids
    of ancestor classes whose own tables are consulted in order (the chain
    links are fixed at creation, the table contents are read live), the own
    static table of the Child function object, and the superclass
    back-reference set on line 174. -/
structure ClsRec where
  ctorV : Val
  protoOwn : Table
  protoChain : List Nat
  statics : Table
  superclassId : Option Nat

/-- The heap of class records, keyed by class ids. -/
abbrev Store := List (Nat × ClsRec)

/-- Fetch a class record by id. -/
def storeGet : Store → Nat → Option ClsRec
  | [], _ => none
  | (i, c) :: t, j => if i = j then some c else storeGet t j

/-- Replace the record at an id, leaving every other id untouched. -/
def storeSet : Store → Nat → ClsRec → Store
  | [], _, _ => []
  | (i, c) :: t, j, x => if i = j then (i, x) :: t else (i, c) :: storeSet t j x

/-- Property lookup along a prototype chain of class ids, reading the current
    own tables in the store. -/
def chainLookup (st : Store) : List Nat → String → Option Val
  | [], _ => none
  | i :: rest, k =>
      match storeGet st i with
      | none => chainLookup st rest k
      | some c =>
          match lookupT c.protoOwn k with
          | some v => some v
          | none => chainLookup st rest k

/-- The lookup dest[name] of line 69: own properties first, then the
    prototype chain. -/
def lookupOC (st : Store) (chain : List Nat) (own : Table) (k : String) : Option Val :=
  match lookupT own k with
  | some v => some v
  | none => chainLookup st chain k

/-- The lodash isFunction check of line 76 applied to a lookup result; an
    absent property is undefined and is not a function. -/
def isFnOpt : Option Val → Bool
  | some v => isFunctionV v
  | none => false

/-- One iteration of the wrapAll loop, lines 66-83: fetch the method and the
    currently installed superMethod, test the candidate text for _super, and
    either install the wrapper or plainly overwrite. The operation is total:
    no branch raises. -/
def wrapAllStep (st : Store) (chain : List Nat) (own : Table) (nm : String) (method : Val) : Table :=
  if superTestOn method && isFunctionV method && isFnOpt (lookupOC st chain own nm) then
    setT own nm (wrap method ((lookupOC st chain own nm).getD .undefined))
  else
    setT own nm method

/-- The function wrapAll(dest, source) of lines 58-84: fold the step over the
    source entries in key order. An empty source returns immediately on line
    62, which coincides with the empty fold. Only the own table of dest is
    written; the chain is read-only. -/
def wrapAll (st : Store) (chain : List Nat) (own : Table) (source : List (String × Val)) : Table :=
  source.foldl (fun acc kv => wrapAllStep st chain acc kv.1 kv.2) own

/-- The expression Parent.prototype.constructor of line 152: the constructor
    entry reachable from the prototype object of a class. -/
def protoCtorOf (st : Store) (p : ClsRec) : Val :=
  (lookupOC st p.protoChain p.protoOwn "constructor").getD .undefined

/-- The child record built by extend (lines 140-181) from parent record p at
    id pid. Constructor selection is lines 147-155; statics are the parent
    copy made by assign on line 158 merged on line 159; the prototype object
    is the Surrogate instance of lines 163-167 whose own table initially
    holds only the constructor back-reference, merged with protoProps on line
    171 (an absent protoProps merges an empty bag). -/
def extendRec (st : Store) (pid : Nat) (p : ClsRec) (protoProps : Option (List (String × Val)))
    (staticProps : List (String × Val)) : ClsRec :=
  let child : Val :=
    match protoProps with
    | none => .fn (.delegate p.ctorV)
    | some props =>
        match lookupT props "constructor" with
        | none => .fn (.delegate p.ctorV)
        | some c => if superTestOn c then wrap c (protoCtorOf st p) else c
  { ctorV := child
    protoOwn := wrapAll st (pid :: p.protoChain) [("constructor", child)] (protoProps.getD [])
    protoChain := pid :: p.protoChain
    statics := wrapAll st [] p.statics staticProps
    superclassId := some pid }

/-- The static method extend: build the child record from the parent and add
    it to the store under a fresh id. The parent record is only read. -/
def extend (st : Store) (pid : Nat) (cid : Nat) (protoProps : Option (List (String × Val)))
    (staticProps : List (String × Val)) : Store :=
  match storeGet st pid with
  | none => st
  | some p => st ++ [(cid, extendRec st pid p protoProps staticProps)]

/-- The static method mixin (lines 211-215): run wrapAll against the live
    prototype table of the class. -/
def mixin (st : Store) (cid : Nat) (props : List (String × Val)) : Store :=
  match storeGet st cid with
  | none => st
  | some c => storeSet st cid { c with protoOwn := wrapAll st c.protoChain c.protoOwn props }

/-- The static method include (lines 256-260): run wrapAll against the live
    static table of the class constructor function. -/
def includeS (st : Store) (cid : Nat) (props : List (String × Val)) : Store :=
  match storeGet st cid with
  | none => st
  | some c => storeSet st cid { c with statics := wrapAll st [] c.statics props }

/-- Invoke an instance method: look the name up through the prototype chain
    of the class of the receiver and call it. -/
def callMethod (st : Store) (fuel : Nat) (cid : Nat) (nm : String) (r : RState)
    (args : List Val) : Outcome × RState :=
  match storeGet st cid with
  | none => (.thrown "TypeError", r)
  | some c => callFn fuel ((lookupOC st c.protoChain c.protoOwn nm).getD .undefined) r args

/-- Instantiation new Child(args): run the constructor function on a fresh
    receiver whose _super slot is absent and whose field table is empty. -/
def instantiate (st : Store) (fuel : Nat) (cid : Nat) (args : List Val) : Outcome × RState :=
  match storeGet st cid with
  | none => (.thrown "TypeError", ⟨.undefined, []⟩)
  | some c => callFn fuel c.ctorV ⟨.undefined, []⟩ args

/-- The urlRoot default of line 300. -/
def urlRoot : String := "http://github.com/thejameskyle/metal.js"

/-- The options bag of the Error constructor, restricted to the two option
    keys the boundary contract names. Of the errorProps list on line 280 only
    message can come from such a bag; url is read separately on line 335 and
    is not an errorProps member. -/
structure ErrOpts where
  message : Option String
  url : Option String

/-- An Error instance as the constructor of lines 310-338 leaves it: name and
    message copied from the host error object (name is the inherited
    "Error"), and url set only on line 336 when options.url is truthy, to
    urlRoot concatenated with it. -/
structure ErrObj where
  name : String
  message : String
  url : Option String

/-- The constructor of lines 310-338 for a string message: options default to
    an empty bag (line 311); the branch of lines 314-317 for an object in
    message position is not taken for a string. The host error created on
    line 320 carries the message; the assign of line 323 overwrites it with
    options.message when that key is present. An empty options.url string is
    falsy, so the url property stays absent for it. -/
def errCtor (message : String) (options : Option ErrOpts) : ErrObj :=
  let opts : ErrOpts := match options with | none => ⟨none, none⟩ | some o => o
  let msg : String := match opts.message with | some m => m | none => message
  let u : Option String :=
    match opts.url with
    | some u => if u = "" then none else some (urlRoot ++ u)
    | none => none
  { name := "Error", message := msg, url := u }

/-- The toString of lines 360-362. -/
def errToString (e : ErrObj) : String :=
  "" ++ e.name ++ ": " ++ e.message ++ (match e.url with | some u => " See: " ++ u | none => "")

/-- Messages accepted by deprecate: a plain string or the structured bag of
    lines 377-379. -/
inductive DepMsg where
  | plain : String → DepMsg
  | structured : String → String → Option String → DepMsg

/-- The formatter deprecate._format of lines 414-416. An absent or empty url
    is falsy and contributes no suffix. -/
def depFormat (prev next : String) (url : Option String) : String :=
  "" ++ prev ++ " is going to be removed in the future. " ++ ("Please use " ++ next ++ " instead.")
    ++ (match url with | some u => if u = "" then "" else " See: " ++ u | none => "")

/-- Own property names of Object.prototype in an ES5 host: bracket lookup on
    the plain-object cache of line 444 finds these even when never assigned,
    and each is bound to a truthy value (a function, or Object.prototype for
    the proto accessor). -/
def objProtoKeys : List String :=
  ["constructor", "toString", "toLocaleString", "valueOf", "hasOwnProperty",
   "isPrototypeOf", "propertyIsEnumerable", "__proto__", "__defineGetter__",
   "__defineSetter__", "__lookupGetter__", "__lookupSetter__"]

/-- Membership of a key in a list of keys. -/
def listHas : List String → String → Bool
  | [], _ => false
  | x :: t, k => if x = k then true else listHas t k

/-- The truthiness test of deprecate._cache[message] on line 397: an explicit
    cache entry, or an inherited Object.prototype member of the plain object. -/
def cacheHit (cache : List String) (k : String) : Bool :=
  listHas cache k || listHas objProtoKeys k

/-- State of the deprecate module: the keys explicitly written into
    deprecate._cache, and the strings emitted through the warning channel
    deprecate._warn, oldest first. -/
structure DepState where
  cache : List String
  warnings : List String

/-- The initial module state: _cache is the empty plain object of line 444
    and nothing has been warned. -/
def depInit : DepState := ⟨[], []⟩

/-- The final string a message argument turns into on lines 388-394: a
    structured bag goes through deprecate._format, and the toString call on
    line 394 is the identity for a string. -/
def depKey : DepMsg → String
  | .plain s => s
  | .structured p n u => depFormat p n u

/-- The function deprecate(message, test) of lines 382-401: a provided truthy
    test returns immediately; a structured message is formatted; the warning
    is emitted and cached only when the cache lookup is falsy. -/
def deprecate (st : DepState) (message : DepMsg) (test : Option Bool) : DepState :=
  if (match test with | some t => t | none => false) then st
  else if cacheHit st.cache (depKey message) then st
  else { cache := depKey message :: st.cache
         warnings := st.warnings ++ ["Deprecation warning: " ++ depKey message] }

/-- Run a sequence of deprecate calls from a state. -/
def runDeprecate (st : DepState) : List (DepMsg × Option Bool) → DepState
  | [] => st
  | c :: rest => runDeprecate (deprecate st c.1 c.2) rest

/-- Assigning a key makes it readable. -/
theorem lookupT_setT_self (t : Table) (k : String) (v : Val) :
    lookupT (setT t k v) k = some v := by
  induction t with
  | nil => simp [setT, lookupT]
  | cons hd t ih =>
      obtain ⟨k', v'⟩ := hd
      by_cases hk : k' = k
      · simp [setT, hk, lookupT]
      · simp [setT, hk, lookupT, ih]

/-- Assigning a key leaves every other key unchanged. -/
theorem lookupT_setT_ne (t : Table) (k a : String) (v : Val) (h : a ≠ k) :
    lookupT (setT t k v) a = lookupT t a := by
  induction t with
  | nil => simp [setT, lookupT, Ne.symm h]
  | cons hd t ih =>
      obtain ⟨k', v'⟩ := hd
      by_cases hk : k' = k
      · subst hk
        simp [setT, lookupT, Ne.symm h]
      · simp [setT, hk, lookupT, ih]

/-- A record present in a store is still found after entries are appended. -/
theorem storeGet_append_left (st l : Store) (i : Nat) (r : ClsRec)
    (h : storeGet st i = some r) : storeGet (st ++ l) i = some r := by
  induction st with
  | nil => simp [storeGet] at h
  | cons hd t ih =>
      obtain ⟨j, c⟩ := hd
      by_cases hj : j = i
      · simp_all [storeGet]
      · simp_all [storeGet]

/-- Lookup of an id absent from the front part of an appended store falls
    through to the appended part. -/
theorem storeGet_append_of_none (st l : Store) (i : Nat)
    (h : storeGet st i = none) : storeGet (st ++ l) i = storeGet l i := by
  induction st with
  | nil => simp
  | cons hd t ih =>
      obtain ⟨j, c⟩ := hd
      by_cases hj : j = i
      · simp_all [storeGet]
      · simp_all [storeGet]

/-- Replacing a present record makes the replacement readable. -/
theorem storeGet_storeSet_self (st : Store) (i : Nat) (c x : ClsRec)
    (h : storeGet st i = some c) : storeGet (storeSet st i x) i = some x := by
  induction st with
  | nil => simp [storeGet] at h
  | cons hd t ih =>
      obtain ⟨j, c'⟩ := hd
      by_cases hj : j = i
      · simp_all [storeGet, storeSet]
      · simp_all [storeGet, storeSet]

/-- Replacing one id leaves every other id unchanged. -/
theorem storeGet_storeSet_ne (st : Store) (i j : Nat) (x : ClsRec) (h : i ≠ j) :
    storeGet (storeSet st j x) i = storeGet st i := by
  induction st with
  | nil => simp [storeGet, storeSet]
  | cons hd t ih =>
      obtain ⟨j', c'⟩ := hd
      by_cases hj : j' = j
      · subst hj
        simp [storeSet, storeGet, Ne.symm h]
      · simp [storeSet, hj, storeGet, ih]

/-- Behavior of the wrap closure on a normal return of the method: the body
    runs with the slot holding exactly the shadowed implementation, and the
    slot is then restored to its value from before the call. -/
theorem callFn_wrapped_ok (fuel : Nat) (m s : Val) (r : RState) (args : List Val)
    (v : Val) (r2 : RState)
    (h : callFn fuel m { r with superSlot := s } args = (.ok v, r2)) :
    callFn (fuel + 1) (.fn (.wrapped m s)) r args = (.ok v, { r2 with superSlot := r.superSlot }) := by
  simp only [callFn, h]

/-- Behavior of the wrap closure on an abnormal exit of the method: the
    failure propagates with the receiver state exactly as the body left it;
    no restoration of the slot happens on this path. -/
theorem callFn_wrapped_thrown (fuel : Nat) (m s : Val) (r : RState) (args : List Val)
    (e : String) (r2 : RState)
    (h : callFn fuel m { r with superSlot := s } args = (.thrown e, r2)) :
    callFn (fuel + 1) (.fn (.wrapped m s)) r args = (.thrown e, r2) := by
  simp only [callFn, h]

/-- Appending strings is associative. -/
theorem strAppendAssoc (a b c : String) : a ++ b ++ c = a ++ (b ++ c) := by
  apply String.ext
  simp [String.data_append, List.append_assoc]

/-- Appending the empty string on the right is the identity. -/
theorem strAppendEmpty (s : String) : s ++ "" = s := by
  apply String.ext
  simp [String.data_append]

/-- Appending to a string is left-cancellative. -/
theorem strAppendCancelLeft (s a b : String) (h : s ++ a = s ++ b) : a = b := by
  apply String.ext
  apply @List.append_cancel_left _ s.data a.data b.data
  have hd := congrArg String.data h
  simpa [String.data_append] using hd

/-- C1 counterexample: a wrapped method that throws propagates the failure
    while the receiver slot still holds the shadowed implementation, which
    differs from the pre-call (empty) slot value, refuting the claimed
    restoration on the abnormal path. -/
theorem C1_counterexample :
    callFn 5 (wrap (.fn .throwErr) (.fn (.ret (.num 10)))) ⟨.undefined, []⟩ [] =
      (.thrown "Error", ⟨.fn (.ret (.num 10)), []⟩) ∧
    Val.fn (.ret (.num 10)) ≠ Val.undefined := by
  constructor
  · rfl
  · decide

/-- C1 (amended): when the underlying method of a wrapped method terminates
    abnormally, the failure propagates with the receiver slot exactly as the
    body left it, with no restoration to the pre-call value; in particular a
    body that throws without touching the slot leaves the shadowed
    implementation in the slot as the failure propagates. Restoration happens
    only on the normal-return path. -/
theorem C1_no_restore_on_abnormal_exit :
    (∀ fuel m s r args e r2,
        callFn fuel m { r with superSlot := s } args = (.thrown e, r2) →
        callFn (fuel + 1) (wrap m s) r args = (.thrown e, r2)) ∧
    (∀ fuel s r args,
        callFn (fuel + 2) (wrap (.fn .throwErr) s) r args =
          (.thrown "Error", { r with superSlot := s })) := by
  constructor
  · intro fuel m s r args e r2 h
    exact callFn_wrapped_thrown fuel m s r args e r2 h
  · intro fuel s r args
    exact callFn_wrapped_thrown (fuel + 1) (.fn .throwErr) s r args "Error"
      { r with superSlot := s } rfl

/-- C1 witness: the amended theorem applied at a concrete wrapped method. -/
theorem C1_witness :
    callFn 2 (wrap (.fn .throwErr) (.fn (.ret (.num 3)))) ⟨.undefined, []⟩ [] =
      (.thrown "Error", ⟨.fn (.ret (.num 3)), []⟩) :=
  C1_no_restore_on_abnormal_exit.1 1 (.fn .throwErr) (.fn (.ret (.num 3)))
    ⟨.undefined, []⟩ [] "Error" ⟨.fn (.ret (.num 3)), []⟩ rfl

/-- Root class of the three-level chain: its f member returns the base value
    10; its constructor member is a no-op function. -/
def c2Root : ClsRec :=
  { ctorV := .fn (.ret .undefined)
    protoOwn := [("constructor", .fn (.ret .undefined)), ("f", .fn (.ret (.num 10)))]
    protoChain := []
    statics := []
    superclassId := none }

/-- Store holding only the root of the chain. -/
def c2St0 : Store := [(0, c2Root)]

/-- First override level: f calls its super and adds 1. -/
def c2St1 : Store := extend c2St0 0 1 (some [("f", .fn (.callSuperAddNum 1))]) []

/-- Second override level. -/
def c2St2 : Store := extend c2St1 1 2 (some [("f", .fn (.callSuperAddNum 1))]) []

/-- Third override level. -/
def c2St3 : Store := extend c2St2 2 3 (some [("f", .fn (.callSuperAddNum 1))]) []

set_option maxRecDepth 100000 in
/-- C2: while a wrapped method body executes, the receiver slot holds exactly
    the shadowed implementation (the body is evaluated from the state whose
    slot is the superMethod), and on a normal return the slot is restored to
    its prior value; consequently the three-level override chain over a base
    value of 10, each level adding 1 to its super result, returns 13 and
    leaves the slot at its pre-call empty value. -/
theorem C2_super_slot_discipline :
    (∀ fuel m s r args v r2,
        callFn fuel m { r with superSlot := s } args = (.ok v, r2) →
        callFn (fuel + 1) (wrap m s) r args = (.ok v, { r2 with superSlot := r.superSlot })) ∧
    callMethod c2St3 30 3 "f" ⟨.undefined, []⟩ [] = (.ok (.num 13), ⟨.undefined, []⟩) := by
  constructor
  · intro fuel m s r args v r2 h
    exact callFn_wrapped_ok fuel m s r args v r2 h
  · decide

/-- C2 witness: the slot-discipline part applied at a concrete wrapped
    method whose body returns 5 under a shadowed method returning 9. -/
theorem C2_witness :
    callFn 2 (wrap (.fn (.ret (.num 5))) (.fn (.ret (.num 9)))) ⟨.undefined, []⟩ [] =
      (.ok (.num 5), ⟨.undefined, []⟩) :=
  C2_super_slot_discipline.1 1 (.fn (.ret (.num 5))) (.fn (.ret (.num 9)))
    ⟨.undefined, []⟩ [] (.num 5) ⟨.fn (.ret (.num 9)), []⟩ rfl

/-- C3: per-key behavior of the merge. The wrapper over the existing entry is
    installed exactly when the heuristic fires and both the candidate and the
    existing entry are callable; in every other case the candidate is written
    plainly; every other key of the destination is untouched; merging an
    empty bag changes nothing. All branches are total, so no error is ever
    raised by a merge. -/
theorem C3_merge_install_cases :
    (∀ st chain own nm method sv,
        lookupOC st chain own nm = some sv → isFunctionV sv = true →
        isFunctionV method = true → superTestOn method = true →
        lookupT (wrapAll st chain own [(nm, method)]) nm = some (wrap method sv)) ∧
    (∀ st chain own nm method,
        (superTestOn method && isFunctionV method && isFnOpt (lookupOC st chain own nm)) = false →
        lookupT (wrapAll st chain own [(nm, method)]) nm = some method) ∧
    (∀ st chain own nm method k, k ≠ nm →
        lookupT (wrapAll st chain own [(nm, method)]) k = lookupT own k) ∧
    (∀ st chain own, wrapAll st chain own [] = own) := by
  refine ⟨?_, ?_, ?_, ?_⟩
  · intro st chain own nm method sv h1 h2 h3 h4
    show lookupT (wrapAllStep st chain own nm method) nm = _
    simp [wrapAllStep, h1, h2, h3, h4, isFnOpt, lookupT_setT_self]
  · intro st chain own nm method h
    show lookupT (wrapAllStep st chain own nm method) nm = _
    simp only [wrapAllStep, h, Bool.false_eq_true, if_false]
    exact lookupT_setT_self own nm method
  · intro st chain own nm method k h
    show lookupT (wrapAllStep st chain own nm method) k = _
    unfold wrapAllStep
    split
    · exact lookupT_setT_ne own nm k _ h
    · exact lookupT_setT_ne own nm k _ h
  · intro st chain own
    rfl

/-- C3 witness: the wrapper-installation direction applied at a concrete
    table holding a callable f shadowed by a super-referencing candidate. -/
theorem C3_witness :
    lookupT (wrapAll [] [] [("f", .fn (.ret (.num 1)))] [("f", .fn (.callSuperAddNum 2))]) "f" =
      some (wrap (.fn (.callSuperAddNum 2)) (.fn (.ret (.num 1)))) :=
  C3_merge_install_cases.1 [] [] [("f", .fn (.ret (.num 1)))] "f"
    (.fn (.callSuperAddNum 2)) (.fn (.ret (.num 1))) rfl rfl rfl (by decide)

/-- C5: the heuristic only fires on whole-word occurrences. A text all of
    whose occurrences of the token are flanked by a word character (that is,
    occur only inside longer identifiers) tests false; a member whose body
    mentions supervisor tests false and is installed unwrapped over a
    callable existing entry; a member whose body uses the standalone token
    tests true and is wrapped. -/
theorem C5_whole_word_heuristic :
    (∀ s : String,
        (∀ i, i < s.data.length → occursAtB s.data i = true → flankedB s.data i = true) →
        superTest s = false) ∧
    superTestOn (.fn (.ret (.str "supervisor"))) = false ∧
    lookupT (wrapAll [] [] [("m", .fn (.ret (.num 1)))] [("m", .fn (.ret (.str "supervisor")))]) "m" =
      some (.fn (.ret (.str "supervisor"))) ∧
    superTestOn (.fn (.callSuperAddNum 1)) = true ∧
    lookupT (wrapAll [] [] [("m", .fn (.ret (.num 1)))] [("m", .fn (.callSuperAddNum 1))]) "m" =
      some (wrap (.fn (.callSuperAddNum 1)) (.fn (.ret (.num 1)))) := by
  refine ⟨?_, by decide, by decide, by decide, by decide⟩
  intro s h
  cases hst : superTest s with
  | false => rfl
  | true =>
      exfalso
      unfold superTest at hst
      rw [List.any_eq_true] at hst
      obtain ⟨i, hi, hstand⟩ := hst
      rw [List.mem_range] at hi
      simp only [standaloneAt, Bool.and_eq_true] at hstand
      obtain ⟨⟨hocc, hb⟩, ha⟩ := hstand
      have hfl := h i hi hocc
      simp [flankedB, hb, ha] at hfl

/-- C5 witness: the whole-word part applied to a concrete text whose only
    occurrence of the token sits inside the longer identifier supervisor. -/
theorem C5_witness : superTest "return this._supervisor();" = false :=
  C5_whole_word_heuristic.1 "return this._supervisor();" (by decide)

/-- A child record added by extend under a fresh id is found at that id. -/
theorem storeGet_extend_child (st : Store) (pid cid : Nat) (p : ClsRec)
    (pp : Option (List (String × Val))) (sp : List (String × Val))
    (hp : storeGet st pid = some p) (hf : storeGet st cid = none) :
    storeGet (extend st pid cid pp sp) cid = some (extendRec st pid p pp sp) := by
  unfold extend
  rw [hp]
  rw [storeGet_append_of_none st _ cid hf]
  simp [storeGet]

/-- Parent class used in the constructor-delegation examples: its constructor
    stores its first argument under key p. -/
def c4Par : ClsRec :=
  { ctorV := .fn (.storeArg "p")
    protoOwn := [("constructor", .fn (.storeArg "p"))]
    protoChain := []
    statics := []
    superclassId := none }

/-- Store holding the delegation-example parent. -/
def c4St : Store := [(0, c4Par)]

/-- Grandparent class of the counterexample lineage. -/
def c4Gp : ClsRec :=
  { ctorV := .fn (.ret .undefined)
    protoOwn := [("constructor", .fn (.ret .undefined))]
    protoChain := []
    statics := []
    superclassId := none }

/-- Store holding the counterexample grandparent. -/
def c4StGp : Store := [(0, c4Gp)]

/-- Middle class: extended with a supplied super-referencing constructor. -/
def c4StP : Store := extend c4StGp 0 1 (some [("constructor", .fn (.callSuperAddNum 0))]) []

/-- Bottom class: again a supplied super-referencing constructor. -/
def c4StC : Store := extend c4StP 1 2 (some [("constructor", .fn (.callSuperAddNum 1))]) []

/-- C4 counterexample: when the parent itself was created from a supplied
    super-referencing constructor, the prototype table of the parent holds a
    re-wrapped constructor entry (the wrapAll pass of line 171 wraps the
    supplied constructor again over the Child function), so the child of such
    a parent gets a constructor wrapped over that re-wrapped entry, which is
    not the dispatch wrapper of the supplied constructor over the parent
    constructor function that the claim names. -/
theorem C4_counterexample :
    (storeGet c4StP 1).map (fun c => c.ctorV) =
      some (wrap (.fn (.callSuperAddNum 0)) (.fn (.ret .undefined))) ∧
    (storeGet c4StC 2).map (fun c => c.ctorV) =
      some (wrap (.fn (.callSuperAddNum 1))
        (.fn (.wrapped (.fn (.callSuperAddNum 0))
          (.fn (.wrapped (.fn (.callSuperAddNum 0)) (.fn (.ret .undefined))))))) ∧
    wrap (.fn (.callSuperAddNum 1))
        (.fn (.wrapped (.fn (.callSuperAddNum 0))
          (.fn (.wrapped (.fn (.callSuperAddNum 0)) (.fn (.ret .undefined)))))) ≠
      wrap (.fn (.callSuperAddNum 1)) (.fn (.wrapped (.fn (.callSuperAddNum 0)) (.fn (.ret .undefined)))) := by
  refine ⟨by decide, by decide, by decide⟩

/-- C4 (amended): for extend(parent, instanceMembers, staticMembers): with no
    constructor entry the child constructor is the pure delegate that invokes
    the parent constructor on the identical receiver and arguments; with a
    supplied super-referencing constructor the child constructor is the
    dispatch wrapper of the supplied constructor over the constructor entry
    of the parent prototype table (which coincides with the parent
    constructor function unless the parent was itself created from a supplied
    super-referencing constructor); otherwise the supplied constructor is
    installed as is and instantiating the child never invokes the parent
    constructor, as the concrete runs show. -/
theorem C4_constructor_selection :
    (∀ st pid cid p sp props,
        storeGet st pid = some p → storeGet st cid = none →
        (props = none ∨ ∃ pr, props = some pr ∧ lookupT pr "constructor" = none) →
        ∃ c, storeGet (extend st pid cid props sp) cid = some c ∧
          c.ctorV = .fn (.delegate p.ctorV)) ∧
    (∀ fuel pv r args v r2, callFn fuel pv r args = (.ok v, r2) →
        callFn (fuel + 1) (.fn (.delegate pv)) r args = (.ok .undefined, r2)) ∧
    instantiate (extend c4St 0 1 none []) 10 1 [.num 42] =
      (.ok .undefined, ⟨.undefined, [("p", .num 42)]⟩) ∧
    (∀ st pid cid p sp pr c,
        storeGet st pid = some p → storeGet st cid = none →
        lookupT pr "constructor" = some c → superTestOn c = true →
        ∃ ch, storeGet (extend st pid cid (some pr) sp) cid = some ch ∧
          ch.ctorV = wrap c (protoCtorOf st p)) ∧
    (∀ st pid cid p sp pr c,
        storeGet st pid = some p → storeGet st cid = none →
        lookupT pr "constructor" = some c → superTestOn c = false →
        ∃ ch, storeGet (extend st pid cid (some pr) sp) cid = some ch ∧ ch.ctorV = c) ∧
    instantiate (extend c4St 0 1 (some [("constructor", .fn (.storeArg "c"))]) []) 10 1 [.num 7] =
      (.ok .undefined, ⟨.undefined, [("c", .num 7)]⟩) ∧
    lookupT [("c", .num 7)] "p" = none := by
  refine ⟨?_, ?_, by decide, ?_, ?_, by decide, by decide⟩
  · intro st pid cid p sp props hp hf hno
    refine ⟨_, storeGet_extend_child st pid cid p props sp hp hf, ?_⟩
    rcases hno with h | ⟨pr, hpr, hlook⟩
    · subst h
      rfl
    · subst hpr
      simp [extendRec, hlook]
  · intro fuel pv r args v r2 h
    simp only [callFn, h]
  · intro st pid cid p sp pr c hp hf hlook hsup
    refine ⟨_, storeGet_extend_child st pid cid p (some pr) sp hp hf, ?_⟩
    simp [extendRec, hlook, hsup]
  · intro st pid cid p sp pr c hp hf hlook hsup
    refine ⟨_, storeGet_extend_child st pid cid p (some pr) sp hp hf, ?_⟩
    simp [extendRec, hlook, hsup]

/-- C4 witness: the plain-replacement case applied at the concrete parent,
    with a non-super-referencing supplied constructor. -/
theorem C4_witness :
    ∃ ch, storeGet (extend c4St 0 1 (some [("constructor", .fn (.storeArg "c"))]) []) 1 = some ch ∧
      ch.ctorV = .fn (.storeArg "c") :=
  C4_constructor_selection.2.2.2.2.1 c4St 0 1 c4Par [] [("constructor", .fn (.storeArg "c"))]
    (.fn (.storeArg "c")) rfl rfl rfl (by decide)

/-- Base class of the mixin examples: no g member. -/
def c6Base : ClsRec :=
  { ctorV := .fn (.ret .undefined)
    protoOwn := [("constructor", .fn (.ret .undefined))]
    protoChain := []
    statics := []
    superclassId := none }

/-- Store holding the mixin-example base class. -/
def c6St0 : Store := [(0, c6Base)]

/-- Mixin A member: g returning the string A. -/
def c6A : Val := .fn (.ret (.str "A"))

/-- Mixin B member: g returning B+ prepended to its super result; its body
    text mentions the standalone super token. -/
def c6B : Val := .fn (.strConcatSuper "B+")

/-- The base class after applying mixin A and then mixin B at key g. -/
def c6StAB : Store := mixin (mixin c6St0 0 [("g", c6A)]) 0 [("g", c6B)]

/-- The base class after applying mixin B and then mixin A at key g. -/
def c6StBA : Store := mixin (mixin c6St0 0 [("g", c6B)]) 0 [("g", c6A)]

/-- A mixin call on a present class replaces its record by the record whose
    prototype table is the merge of the old one with the bag. -/
theorem mixin_found (st : Store) (cid : Nat) (c : ClsRec) (props : List (String × Val))
    (h : storeGet st cid = some c) :
    storeGet (mixin st cid props) cid =
      some { c with protoOwn := wrapAll st c.protoChain c.protoOwn props } := by
  unfold mixin
  rw [h]
  exact storeGet_storeSet_self st cid c _ h

/-- C6: applying mixin A then mixin B at one key installs the wrapper of the
    B member over the A member, because the existing entry at merge time of B
    is whatever is currently installed; invoking the wrapper runs the B body
    with the slot bound to the A member; on the concrete example the result
    is B+A, while the reverse application order yields A, so application
    order is not commutative. -/
theorem C6_mixin_shadow_chain :
    (∀ st cid c a b,
        storeGet st cid = some c →
        isFunctionV a = true → superTestOn a = false →
        isFunctionV b = true → superTestOn b = true →
        ∃ c2, storeGet (mixin (mixin st cid [("g", a)]) cid [("g", b)]) cid = some c2 ∧
          lookupT c2.protoOwn "g" = some (wrap b a)) ∧
    (∀ fuel a b r args v r2,
        callFn fuel b { r with superSlot := a } args = (.ok v, r2) →
        callFn (fuel + 1) (wrap b a) r args = (.ok v, { r2 with superSlot := r.superSlot })) ∧
    callMethod c6StAB 10 0 "g" ⟨.undefined, []⟩ [] = (.ok (.str "B+A"), ⟨.undefined, []⟩) ∧
    callMethod c6StBA 10 0 "g" ⟨.undefined, []⟩ [] = (.ok (.str "A"), ⟨.undefined, []⟩) ∧
    Outcome.ok (.str "B+A") ≠ Outcome.ok (.str "A") := by
  refine ⟨?_, ?_, by decide, by decide, by decide⟩
  · intro st cid c a b hc hfa hsa hfb hsb
    have e1 : wrapAll st c.protoChain c.protoOwn [("g", a)] = setT c.protoOwn "g" a := by
      show wrapAllStep st c.protoChain c.protoOwn "g" a = _
      simp [wrapAllStep, hsa]
    have h1 := mixin_found st cid c [("g", a)] hc
    rw [e1] at h1
    have e2 : wrapAll (mixin st cid [("g", a)]) c.protoChain (setT c.protoOwn "g" a) [("g", b)] =
        setT (setT c.protoOwn "g" a) "g" (wrap b a) := by
      show wrapAllStep _ c.protoChain (setT c.protoOwn "g" a) "g" b = _
      simp [wrapAllStep, lookupOC, lookupT_setT_self, isFnOpt, hsb, hfb, hfa]
    have h2 := mixin_found (mixin st cid [("g", a)]) cid _ [("g", b)] h1
    refine ⟨_, h2, ?_⟩
    show lookupT (wrapAll (mixin st cid [("g", a)])
        ({ c with protoOwn := setT c.protoOwn "g" a } : ClsRec).protoChain
        ({ c with protoOwn := setT c.protoOwn "g" a } : ClsRec).protoOwn [("g", b)]) "g" = _
    rw [show ({ c with protoOwn := setT c.protoOwn "g" a } : ClsRec).protoChain = c.protoChain from rfl]
    rw [show ({ c with protoOwn := setT c.protoOwn "g" a } : ClsRec).protoOwn = setT c.protoOwn "g" a from rfl]
    rw [e2]
    exact lookupT_setT_self _ "g" _
  · intro fuel a b r args v r2 h
    exact callFn_wrapped_ok fuel b a r args v r2 h

/-- C6 witness: the merge-time-binding part applied to the concrete base
    class and the concrete mixin members A and B. -/
theorem C6_witness :
    ∃ c2, storeGet (mixin (mixin c6St0 0 [("g", c6A)]) 0 [("g", c6B)]) 0 = some c2 ∧
      lookupT c2.protoOwn "g" = some (wrap c6B c6A) :=
  C6_mixin_shadow_chain.1 c6St0 0 c6Base c6A c6B rfl rfl (by decide) rfl (by decide)

/-- Parent of the static-independence example, with one static s. -/
def c7Par : ClsRec :=
  { ctorV := .fn (.ret .undefined)
    protoOwn := [("constructor", .fn (.ret .undefined))]
    protoChain := []
    statics := [("s", .num 0)]
    superclassId := none }

/-- Store holding the static-independence parent. -/
def c7St : Store := [(0, c7Par)]

/-- Two children of the parent, then one include of a distinct static on
    each child. -/
def c7Final : Store :=
  includeS (includeS (extend (extend c7St 0 1 none []) 0 2 none []) 1 [("x", .num 1)])
    2 [("y", .num 2)]

/-- C7: extend never mutates existing records (every id readable before is
    readable unchanged after); include rewrites only the targeted id; the
    child built by extend carries a fresh static table that is the merged
    copy of the parent statics and a prototype chain that structurally
    delegates to the parent; concretely, two children of one parent given
    different included statics leave the parent table and each other
    unaffected. -/
theorem C7_extend_pure_and_static_independence :
    (∀ st pid cid pp sp i r, storeGet st i = some r →
        storeGet (extend st pid cid pp sp) i = some r) ∧
    (∀ st cid props j, j ≠ cid →
        storeGet (includeS st cid props) j = storeGet st j) ∧
    (∀ st pid cid pp sp p, storeGet st pid = some p → storeGet st cid = none →
        ∃ c, storeGet (extend st pid cid pp sp) cid = some c ∧
          c.statics = wrapAll st [] p.statics sp ∧
          c.protoChain = pid :: p.protoChain) ∧
    (storeGet c7Final 0).map (fun c => c.statics) = some [("s", .num 0)] ∧
    (storeGet c7Final 1).map (fun c => c.statics) = some [("s", .num 0), ("x", .num 1)] ∧
    (storeGet c7Final 2).map (fun c => c.statics) = some [("s", .num 0), ("y", .num 2)] := by
  refine ⟨?_, ?_, ?_, by decide, by decide, by decide⟩
  · intro st pid cid pp sp i r h
    unfold extend
    cases hp : storeGet st pid with
    | none => exact h
    | some p => exact storeGet_append_left st _ i r h
  · intro st cid props j hj
    unfold includeS
    cases hc : storeGet st cid with
    | none => rfl
    | some c => exact storeGet_storeSet_ne st j cid _ hj
  · intro st pid cid pp sp p hp hf
    exact ⟨_, storeGet_extend_child st pid cid p pp sp hp hf, rfl, rfl⟩

/-- C7 witness: the extend-purity part applied to the concrete parent store:
    the parent record is unchanged by extending a child from it. -/
theorem C7_witness :
    storeGet (extend c7St 0 1 none []) 0 = some c7Par :=
  C7_extend_pure_and_static_independence.1 c7St 0 1 none [] 0 c7Par rfl

/-- C8: an error built from a string message exposes that message; with no
    options the url is absent and the rendering is the name, a colon and the
    message; a non-empty url option makes the url present (prefixed by
    urlRoot) and appends the See suffix to the rendering; an options message
    overrides the positional one; and the url is present only when a
    non-empty url option was supplied. -/
theorem C8_error_contract :
    (∀ m, (errCtor m none).message = m ∧ (errCtor m none).url = none ∧
        errToString (errCtor m none) = "Error: " ++ m) ∧
    (∀ m u, u ≠ "" →
        (errCtor m (some ⟨none, some u⟩)).message = m ∧
        (errCtor m (some ⟨none, some u⟩)).url = some (urlRoot ++ u) ∧
        errToString (errCtor m (some ⟨none, some u⟩)) =
          "Error: " ++ m ++ (" See: " ++ (urlRoot ++ u))) ∧
    (∀ m mo o, (errCtor m (some ⟨some mo, o⟩)).message = mo) ∧
    (∀ m o, ((errCtor m (some o)).url).isSome = true → ∃ u, o.url = some u ∧ u ≠ "") := by
  refine ⟨?_, ?_, ?_, ?_⟩
  · intro m
    refine ⟨rfl, rfl, ?_⟩
    simp [errCtor, errToString, strAppendEmpty]
  · intro m u hu
    refine ⟨rfl, ?_, ?_⟩
    · simp [errCtor, hu]
    · simp [errCtor, errToString, hu]
  · intro m mo o
    rfl
  · intro m o h
    rcases o with ⟨mo, uo⟩
    cases uo with
    | none => simp [errCtor] at h
    | some u =>
        by_cases hu : u = ""
        · simp [errCtor, hu] at h
        · exact ⟨u, rfl, hu⟩

/-- C8 witness: the url case applied at a concrete message and url. -/
theorem C8_witness :
    errToString (errCtor "boom" (some ⟨none, some "/err"⟩)) =
      "Error: " ++ "boom" ++ (" See: " ++ (urlRoot ++ "/err")) :=
  (C8_error_contract.2.1 "boom" "/err" (by decide)).2.2

/-- A key found in a list is still found after consing another key. -/
theorem listHas_cons_of (x : String) (t : List String) (k : String)
    (h : listHas t k = true) : listHas (x :: t) k = true := by
  by_cases hx : x = k <;> simp [listHas, hx, h]

/-- Invariant of the deprecate state: the emitted warnings are duplicate
    free, and every emitted warning has its key in the explicit cache and
    outside the inherited Object.prototype names. -/
def DepInv (st : DepState) : Prop :=
  st.warnings.Nodup ∧
  ∀ m, ("Deprecation warning: " ++ m) ∈ st.warnings →
    listHas st.cache m = true ∧ listHas objProtoKeys m = false

/-- The initial deprecate state satisfies the invariant. -/
theorem depInv_init : DepInv depInit := by
  constructor
  · exact List.nodup_nil
  · intro m hm
    simp [depInit] at hm

/-- One deprecate call preserves the invariant. -/
theorem depInv_step (st : DepState) (msg : DepMsg) (test : Option Bool)
    (h : DepInv st) : DepInv (deprecate st msg test) := by
  obtain ⟨hnd, hmem⟩ := h
  unfold deprecate
  split
  · exact ⟨hnd, hmem⟩
  split
  · exact ⟨hnd, hmem⟩
  rename_i htest hcache
  have hc : cacheHit st.cache (depKey msg) = false := by
    revert hcache
    cases cacheHit st.cache (depKey msg) <;> simp
  have hboth := hc
  rw [cacheHit, Bool.or_eq_false_iff] at hboth
  obtain ⟨hc1, hc2⟩ := hboth
  constructor
  · rw [List.nodup_append]
    refine ⟨hnd, List.nodup_singleton _, ?_⟩
    intro x hx hx2
    rw [List.mem_singleton] at hx2
    subst hx2
    have hin := (hmem _ hx).1
    rw [hin] at hc1
    exact absurd hc1 (by decide)
  · intro m hm
    rw [List.mem_append, List.mem_singleton] at hm
    cases hm with
    | inl hm0 =>
        obtain ⟨ha, hb⟩ := hmem m hm0
        exact ⟨listHas_cons_of _ _ _ ha, hb⟩
    | inr hm0 =>
        have hk : m = depKey msg := strAppendCancelLeft "Deprecation warning: " _ _ hm0
        subst hk
        refine ⟨?_, hc2⟩
        simp [listHas]

/-- Any sequence of deprecate calls preserves the invariant. -/
theorem depInv_run (st : DepState) (h : DepInv st)
    (calls : List (DepMsg × Option Bool)) : DepInv (runDeprecate st calls) := by
  induction calls generalizing st with
  | nil => exact h
  | cons c rest ih =>
      show DepInv (runDeprecate (deprecate st c.1 c.2) rest)
      exact ih _ (depInv_step st c.1 c.2 h)

/-- C9: a truthy test suppresses any emission and state change; the
    structured format is the removal sentence with the See suffix appended
    exactly for a non-empty url; an uncached structured message is emitted
    through the warn channel once, formatted, and cached; and over any call
    sequence from the initial module state every distinct warning string is
    emitted at most once. -/
theorem C9_deprecate_contract :
    (∀ st m, deprecate st m (some true) = st) ∧
    (∀ p n u, u ≠ "" → depFormat p n (some u) = depFormat p n none ++ " See: " ++ u) ∧
    (∀ st p n u, cacheHit st.cache (depFormat p n u) = false →
        deprecate st (.structured p n u) none =
          ⟨depFormat p n u :: st.cache,
           st.warnings ++ ["Deprecation warning: " ++ depFormat p n u]⟩) ∧
    (∀ calls w, ((runDeprecate depInit calls).warnings.count w) ≤ 1) := by
  refine ⟨?_, ?_, ?_, ?_⟩
  · intro st m
    rfl
  · intro p n u hu
    simp [depFormat, hu, strAppendEmpty, strAppendAssoc]
    rw [← strAppendAssoc " instead." " See: " u]
    simp
  · intro st p n u h
    simp [deprecate, depKey, h]
  · intro calls w
    exact List.nodup_iff_count_le_one.mp (depInv_run depInit depInv_init calls).1 w

/-- C9 witness: the emission part applied to a concrete structured message
    from the initial state. -/
theorem C9_witness :
    deprecate depInit (.structured "oldFn" "newFn" none) none =
      ⟨[depFormat "oldFn" "newFn" none],
       ["Deprecation warning: " ++ depFormat "oldFn" "newFn" none]⟩ :=
  C9_deprecate_contract.2.2.1 depInit "oldFn" "newFn" none (by decide)

/-- C10: a message whose final string is an inherited Object.prototype
    property name hits the plain-object cache on the very first call, so the
    call is a no-op, and over any call sequence from the initial state such a
    message is never emitted through the warning channel. -/
theorem C10_inherited_cache_keys_skip :
    (∀ st m, listHas objProtoKeys m = true → deprecate st (.plain m) none = st) ∧
    (∀ calls m, listHas objProtoKeys m = true →
        ("Deprecation warning: " ++ m) ∉ (runDeprecate depInit calls).warnings) := by
  constructor
  · intro st m h
    have hc : cacheHit st.cache m = true := by
      simp [cacheHit, h]
    simp [deprecate, depKey, hc]
  · intro calls m h hmem
    have h2 := (depInv_run depInit depInv_init calls).2 m hmem
    rw [h2.2] at h
    exact absurd h (by decide)

/-- C10 witness: the skip part applied to the message constructor at the
    initial state, where not even a first emission happens. -/
theorem C10_witness :
    deprecate depInit (.plain "constructor") none = depInit :=
  C10_inherited_cache_keys_skip.1 depInit "constructor" (by decide)

end MetalSpec
